import Mathlib

/-!
Shallow embedding of `src/datavisualisationsa.py` (Brine Data Visualiser).

A raw sheet is a grid of optional strings: `none` models a blank cell,
which pandas reads as NaN and `astype(str)` renders as the text "nan".
Cell values are exact rationals: the Python code manipulates float64,
which this development idealises as exact arithmetic; the artifacts of
division (infinity / NaN) are modelled explicitly by `FpVal`.
-/

namespace DataVis

/-- A raw spreadsheet cell; `none` models a blank (NaN) cell. -/
abbrev Cell := Option String

/-- A raw sheet: a grid of cells, row 0 holding the date labels. -/
abbrev RawSheet := List (List Cell)

/-- pandas `astype(str)`: a NaN cell renders as the text "nan". -/
def cellToString : Cell → String
  | none => "nan"
  | some s => s

/-- A calendar date as produced by `pd.to_datetime`. -/
structure Date where
  year : Nat
  month : Nat
  day : Nat
deriving DecidableEq

/-- Gregorian leap-year test. -/
def isLeap (y : Nat) : Bool :=
  (y % 4 == 0 && y % 100 != 0) || (y % 400 == 0)

/-- Number of days in a month of a given year. -/
def daysInMonth (y m : Nat) : Nat :=
  if m = 2 then (if isLeap y then 29 else 28)
  else if m = 4 ∨ m = 6 ∨ m = 9 ∨ m = 11 then 30 else 31

/-- A date is a valid calendar date. -/
def Date.valid (d : Date) : Bool :=
  decide (1 ≤ d.month ∧ d.month ≤ 12 ∧ 1 ≤ d.day ∧ d.day ≤ daysInMonth d.year d.month)

/-- Split a character list on a separator character. -/
def splitOnCharGo (sep : Char) : List Char → List Char → List (List Char)
  | [], acc => [acc.reverse]
  | c :: rest, acc =>
      if c = sep then acc.reverse :: splitOnCharGo sep rest []
      else splitOnCharGo sep rest (c :: acc)

/-- Split a character list on a separator character, top-level entry. -/
def splitOnChar (sep : Char) (cs : List Char) : List (List Char) :=
  splitOnCharGo sep cs []

/-- Decimal digits to a natural number. -/
def digitsToNat (ds : List Char) : Nat :=
  ds.foldl (fun n c => 10 * n + (c.toNat - 48)) 0

/-- Parse a non-empty all-digit character list as a natural number. -/
def parseNatAll (cs : List Char) : Option Nat :=
  if cs.isEmpty then none
  else if cs.all Char.isDigit then some (digitsToNat cs) else none

/-- Model of `pd.to_datetime(s, errors="coerce")` on an ISO `YYYY-MM-DD`
label: the three hyphen-separated fields must be numeric and form a valid
calendar date, otherwise the result is NaT (`none`). -/
def parseDate (s : String) : Option Date :=
  match splitOnChar '-' s.data with
  | [ys, ms, ds] =>
      match parseNatAll ys, parseNatAll ms, parseNatAll ds with
      | some y, some m, some d =>
          if (Date.mk y m d).valid then some (Date.mk y m d) else none
      | _, _, _ => none
  | _ => none

/-- Two-digit zero-padded rendering of a (small) natural number. -/
def pad2 (n : Nat) : String :=
  if n < 10 then "0" ++ toString n else toString n

/-- Model of `strftime("%m-%y")`: two-digit month, hyphen, two-digit year. -/
def fmtMMYY (d : Date) : String :=
  pad2 d.month ++ "-" ++ pad2 (d.year % 100)

/-- Consume one match of the tail of `<\s*\d+\.?\d*` (everything after the
`<`), returning the remainder of the input after the greedy match, or `none`
when the regex does not match at this position. -/
def ltMatchTail (cs : List Char) : Option (List Char) :=
  let afterWs := cs.dropWhile Char.isWhitespace
  let digs := afterWs.takeWhile Char.isDigit
  if digs.isEmpty then none
  else
    match afterWs.drop digs.length with
    | [] => some []
    | c :: r => if c = '.' then some (r.dropWhile Char.isDigit) else some (c :: r)

/-- Fuelled single pass of the regex substitution
`replace(r"<\s*\d+\.?\d*", "0", regex=True)`: each non-overlapping
leftmost match is replaced by the single character `0`. -/
def ltSubstGo : Nat → List Char → List Char
  | 0, cs => cs
  | _ + 1, [] => []
  | fuel + 1, c :: rest =>
      if c = '<' then
        match ltMatchTail rest with
        | some rem => '0' :: ltSubstGo fuel rem
        | none => c :: ltSubstGo fuel rest
      else c :: ltSubstGo fuel rest

/-- Regex substitution on a character list (the fuel `cs.length` always
suffices because a match consumes at least the `<` character). -/
def ltSubst (cs : List Char) : List Char :=
  ltSubstGo cs.length cs

/-- Regex substitution on a string, as applied to every data cell. -/
def ltReplace (s : String) : String :=
  String.mk (ltSubst s.data)

/-- Strip leading and trailing whitespace. -/
def stripSpaces (cs : List Char) : List Char :=
  ((cs.dropWhile Char.isWhitespace).reverse.dropWhile Char.isWhitespace).reverse

/-- Optional leading sign of a numeric literal. -/
def parseSign : List Char → ℚ × List Char
  | '-' :: r => (-1, r)
  | '+' :: r => (1, r)
  | cs => (1, cs)

/-- Mantissa of a decimal literal: digits with an optional fractional part;
at least one digit must be present overall. -/
def parseMantissa (cs : List Char) : Option (ℚ × List Char) :=
  let ip := cs.takeWhile Char.isDigit
  match cs.drop ip.length with
  | '.' :: r =>
      let fp := r.takeWhile Char.isDigit
      if ip.isEmpty && fp.isEmpty then none
      else some ((digitsToNat ip : ℚ) + (digitsToNat fp : ℚ) / (10 : ℚ) ^ fp.length,
                 r.drop fp.length)
  | rest => if ip.isEmpty then none else some ((digitsToNat ip : ℚ), rest)

/-- Exponent part after an `e`/`E`: an optionally signed digit string. -/
def expPart (q : ℚ) (r : List Char) : Option ℚ :=
  let (neg, r2) := match r with
    | '-' :: t => (true, t)
    | '+' :: t => (false, t)
    | t => (false, t)
  if r2.isEmpty then none
  else if r2.all Char.isDigit then
    some (if neg then q / (10 : ℚ) ^ digitsToNat r2 else q * (10 : ℚ) ^ digitsToNat r2)
  else none

/-- Apply an optional exponent suffix; any other trailing text fails. -/
def applyExp (q : ℚ) : List Char → Option ℚ
  | [] => some q
  | 'e' :: r => expPart q r
  | 'E' :: r => expPart q r
  | _ => none

/-- Model of `pd.to_numeric(s, errors="coerce")` on a string cell: an
optionally signed decimal literal with optional exponent, surrounding
whitespace ignored; anything else (including the text "nan", which the
Python pipeline also sends to 0 via `fillna`) yields `none`. -/
def parseFloatQ (s : String) : Option ℚ :=
  let cs := stripSpaces s.data
  let sg := parseSign cs
  match parseMantissa sg.2 with
  | none => none
  | some mr => applyExp (sg.1 * mr.1) mr.2

/-- Value coercion applied to every data cell of a sheet
(`replace` then `to_numeric(errors="coerce").fillna(0)`): the
below-detection-limit pattern is rewritten to `0`, then the text is parsed
as a number, any parse failure becoming `0`. -/
def coerceCell (s : String) : ℚ :=
  (parseFloatQ (ltReplace s)).getD 0

/-- A long-form row produced by the sheet normaliser. -/
structure Record where
  parameter : String
  sampling_date : Date
  value : ℚ
  date_label : String
  site : String
deriving DecidableEq

/-- The record built for body row `row` under the date column at position
`j` of the data columns (original column `j + 1`). -/
def mkRecord (site : String) (d : Date) (row : List Cell) (j : Nat) : Record :=
  { parameter := cellToString (row.getD 0 none)
    sampling_date := d
    value := coerceCell (cellToString (row.getD (j + 1) none))
    date_label := fmtMMYY d
    site := site }

/-- Column-major melt of the data columns, mirroring `df.melt` followed by
`to_datetime` + `dropna(subset=["Sampling Date"])`: a column whose label
fails to parse as a date contributes no rows at all; a parsing column
contributes one row per body row, in body order. -/
def meltCols (body : List (List Cell)) (site : String) : Nat → List Cell → List Record
  | _, [] => []
  | j, c :: rest =>
      (match parseDate (cellToString c) with
       | none => []
       | some d => body.map (fun row => mkRecord site d row j)) ++
      meltCols body site (j + 1) rest

/-- Model of `process_sheet`: row 0 becomes the date labels, column 0 the
parameter keys; every data cell is coerced by `coerceCell`; the wide grid
is melted to long form and rows with unparseable date labels are dropped. -/
def process_sheet (df_raw : RawSheet) (site_name : String) : List Record :=
  match df_raw with
  | [] => []
  | header :: body => meltCols body site_name 0 header.tail

/-- Filter of the unified table by parameter list and site list, mirroring
`isin(params) & isin(sites)`. -/
def filterParamsSites (all : List Record) (ps sites : List String) : List Record :=
  all.filter (fun r => decide (r.parameter ∈ ps ∧ r.site ∈ sites))

/-- The list of values sharing pivot key `(d, s)` and parameter `p`. -/
def valuesAt (rs : List Record) (d : Date) (s p : String) : List ℚ :=
  (rs.filter (fun r => decide (r.sampling_date = d ∧ r.site = s ∧ r.parameter = p))).map
    Record.value

/-- One cell of a pivot keyed by `(sampling_date, site)`: `pivot_table`'s
default aggregation, the arithmetic mean of the matching values; `none`
models the NaN of an empty group. -/
def cellDS (rs : List Record) (d : Date) (s p : String) : Option ℚ :=
  if (valuesAt rs d s p).isEmpty then none
  else some ((valuesAt rs d s p).sum / ((valuesAt rs d s p).length : ℚ))

/-- The list of values sharing pivot key `(d, l, s)` and parameter `p`
(the ratio pivot is additionally keyed by the `date_label` column). -/
def valuesAt3 (rs : List Record) (d : Date) (l s p : String) : List ℚ :=
  (rs.filter (fun r =>
    decide (r.sampling_date = d ∧ r.date_label = l ∧ r.site = s ∧ r.parameter = p))).map
    Record.value

/-- One cell of a pivot keyed by `(sampling_date, date_label, site)`. -/
def cellDLS (rs : List Record) (d : Date) (l s p : String) : Option ℚ :=
  if (valuesAt3 rs d l s p).isEmpty then none
  else some ((valuesAt3 rs d l s p).sum / ((valuesAt3 rs d l s p).length : ℚ))

/-- The distinct parameter columns of a pivot: exactly the parameters that
actually occur in the filtered frame. -/
def pivotCols (rs : List Record) : List String :=
  (rs.map Record.parameter).dedup

/-- Surviving keys of the scatter pivot (`pivot_df`): the distinct
`(sampling_date, site)` keys of the filtered frame, minus those dropped by
`dropna()` for having an empty cell in some existing parameter column. -/
def scatterPivotKeys (all : List Record) (px py : String) (sites : List String) :
    List (Date × String) :=
  let f := filterParamsSites all [px, py] sites
  ((f.map (fun r => (r.sampling_date, r.site))).dedup).filter
    (fun k => (pivotCols f).all (fun p => (cellDS f k.1 k.2 p).isSome))

/-- Surviving keys of the ratio pivot (`pivot_ratio`), keyed by
`(sampling_date, date_label, site)`. -/
def ratioPivotKeys (all : List Record) (p1 p2 : String) (sites : List String) :
    List (Date × String × String) :=
  let f := filterParamsSites all [p1, p2] sites
  ((f.map (fun r => (r.sampling_date, r.date_label, r.site))).dedup).filter
    (fun k => (pivotCols f).all (fun p => (cellDLS f k.1 k.2.1 k.2.2 p).isSome))

/-- IEEE-style value of a division over exact operands. -/
inductive FpVal where
  | fin (q : ℚ)
  | inf
  | neginf
  | nan
deriving DecidableEq

/-- A division artifact: anything but a finite value. -/
def FpVal.isArtifact : FpVal → Bool
  | .fin _ => false
  | _ => true

/-- Float division with the standard artifacts on a zero denominator:
`0/0` is NaN, otherwise a signed infinity; no special-casing by the app. -/
def fdiv (a b : ℚ) : FpVal :=
  if b = 0 then (if a = 0 then .nan else if 0 < a then .inf else .neginf)
  else .fin (a / b)

/-- The `Ratio` column entry of the ratio pivot at key `k`: the quotient of
the numerator column by the denominator column, when both cells exist. -/
def ratioAt (all : List Record) (p1 p2 : String) (sites : List String)
    (k : Date × String × String) : Option FpVal :=
  let f := filterParamsSites all [p1, p2] sites
  match cellDLS f k.1 k.2.1 k.2.2 p1, cellDLS f k.1 k.2.1 k.2.2 p2 with
  | some a, some b => some (fdiv a b)
  | _, _ => none

/-- The ratio section of the app: rendered only when exactly two parameters
are selected, silently skipped otherwise (the source has no message branch
here). Result: (rendered flag, messages shown, plotted rows). -/
def ratio_section (all : List Record) (ratio_params sites : List String) :
    Bool × List String × List ((Date × String × String) × FpVal) :=
  if ratio_params.length = 2 then
    (true, [],
      (ratioPivotKeys all (ratio_params.getD 0 "") (ratio_params.getD 1 "") sites).filterMap
        (fun k => (ratioAt all (ratio_params.getD 0 "") (ratio_params.getD 1 "") sites k).map
          (fun v => (k, v))))
  else (false, [], [])

/-- The candidate parameters of the pairplot:
`list(set(pair1["PARAMETER"]).intersection(pair2["PARAMETER"]))` followed
by `.sort()` — the exact-string intersection, in ascending order. -/
def common_params (pair1 pair2 : List Record) : List String :=
  List.insertionSort (· ≤ ·)
    (((pair1.map Record.parameter).filter
        (fun p => decide (p ∈ pair2.map Record.parameter))).dedup)

/-- Surviving keys of the pairplot pivot (`pivot_pair`): the merged pair of
sheets filtered by parameter only (no site filter appears in the source),
pivoted on `(sampling_date, site)` and stripped by `dropna()`. -/
def pairPivotKeys (merged : List Record) (sel : List String) : List (Date × String) :=
  let f := merged.filter (fun r => decide (r.parameter ∈ sel))
  ((f.map (fun r => (r.sampling_date, r.site))).dedup).filter
    (fun k => (pivotCols f).all (fun p => (cellDS f k.1 k.2 p).isSome))

/-- The pairplot section of the app. With two selected sheets and a
non-empty parameter selection it renders the pivot; with two sheets and an
empty selection the pivot assignment is skipped but the render line still
runs, so Python raises `NameError` on the unbound `pivot_pair` (modelled by
`Except.error`); with any other number of sheets the render is skipped and
the warning text is shown. Result: (rendered flag, messages, pivot keys). -/
def pairplot_section (processed : List (String × List Record))
    (sheet_pair selected : List String) :
    Except String (Bool × List String × List (Date × String)) :=
  match sheet_pair with
  | [s1, s2] =>
      let pair1 := (processed.lookup s1).getD []
      let pair2 := (processed.lookup s2).getD []
      let merged := pair1 ++ pair2
      if selected.isEmpty then
        .error "NameError: name pivot_pair is not defined"
      else
        .ok (true, ["Generating pairplot (this may take a few seconds)..."],
             pairPivotKeys merged selected)
  | _ => .ok (false, ["Please select at least one parameter for the pairplot."], [])

/-- Aggregation of a multi-sheet workbook: only the first four sheets are
parsed (`xls.sheet_names[:4]`), each is normalised with its name as the
site label, and the results are concatenated in sheet order. -/
def all_data_workbook (wb : List (String × RawSheet)) : List Record :=
  ((wb.take 4).map (fun nd => process_sheet nd.2 nd.1)).flatten

/-- Aggregation of a CSV upload: a single implied sheet named `Sheet1`. -/
def all_data_csv (df : RawSheet) : List Record :=
  ([("Sheet1", df)].map (fun nd => process_sheet nd.2 nd.1)).flatten

attribute [local semireducible] Rat.mul Rat.add Rat.sub Rat.inv

lemma parseDate_valid {s : String} {d : Date} (h : parseDate s = some d) :
    d.valid = true := by
  unfold parseDate at h
  repeat' split at h
  all_goals simp_all

lemma meltCols_mem {body : List (List Cell)} {site : String} :
    ∀ {cols : List Cell} {j : Nat} {r : Record}, r ∈ meltCols body site j cols →
      ∃ c ∈ cols, ∃ d, parseDate (cellToString c) = some d ∧
        ∃ row ∈ body, ∃ i, r = mkRecord site d row i := by
  intro cols
  induction cols with
  | nil => intro j r h; simp [meltCols] at h
  | cons c rest ih =>
      intro j r h
      simp only [meltCols, List.mem_append] at h
      rcases h with h | h
      · rcases hp : parseDate (cellToString c) with _ | d
        · rw [hp] at h; simp at h
        · rw [hp] at h
          rcases List.mem_map.mp h with ⟨row, hrow, hr⟩
          exact ⟨c, List.mem_cons_self c rest, d, hp, row, hrow, j, hr.symm⟩
      · rcases ih h with ⟨c2, hc2, d, hp, row, hrow, i, hr⟩
        exact ⟨c2, List.mem_cons_of_mem c hc2, d, hp, row, hrow, i, hr⟩

lemma meltCols_length (body : List (List Cell)) (site : String) :
    ∀ (cols : List Cell) (j : Nat),
      (meltCols body site j cols).length =
        (cols.countP (fun c => (parseDate (cellToString c)).isSome)) * body.length := by
  intro cols
  induction cols with
  | nil => intro j; simp [meltCols]
  | cons c rest ih =>
      intro j
      rw [meltCols, List.length_append, ih (j + 1), List.countP_cons]
      rcases hp : parseDate (cellToString c) with _ | d
      · simp [hp]
      · simp [hp, Nat.add_mul, Nat.add_comm]

/-- C1. Every record produced by the sheet normaliser has a valid calendar
sampling date obtained from a successfully parsed label (rows whose label
fails to parse never appear), and its value is the total cell coercion of
some cell text, hence defined (never missing). -/
theorem process_sheet_date_invariant (raw : RawSheet) (site : String) (r : Record)
    (h : r ∈ process_sheet raw site) :
    r.sampling_date.valid = true ∧
      (∃ lbl, parseDate lbl = some r.sampling_date) ∧
      (∃ cellText, r.value = coerceCell cellText) := by
  cases raw with
  | nil => simp [process_sheet] at h
  | cons header body =>
      obtain ⟨c, _, d, hp, row, _, i, hr⟩ := meltCols_mem (r := r) h
      subst hr
      refine ⟨?_, ⟨cellToString c, ?_⟩, ⟨cellToString (row.getD (i + 1) none), rfl⟩⟩
      · simpa [mkRecord] using parseDate_valid hp
      · simpa [mkRecord] using hp

/-- Witness for C1 at a concrete one-cell sheet. -/
theorem process_sheet_date_invariant_witness :
    (Record.mk "Ca" ⟨2021, 1, 1⟩ 5 "01-21" "S") ∈
        process_sheet [[some "PARAM", some "2021-01-01"], [some "Ca", some "5"]] "S" ∧
      Date.valid ⟨2021, 1, 1⟩ = true ∧
      (∃ lbl, parseDate lbl = some (Record.mk "Ca" ⟨2021, 1, 1⟩ 5 "01-21" "S").sampling_date) ∧
      (∃ cellText, (Record.mk "Ca" ⟨2021, 1, 1⟩ 5 "01-21" "S").value = coerceCell cellText) := by
  have hmem : (Record.mk "Ca" ⟨2021, 1, 1⟩ 5 "01-21" "S") ∈
      process_sheet [[some "PARAM", some "2021-01-01"], [some "Ca", some "5"]] "S" := by decide
  have hc := process_sheet_date_invariant
    [[some "PARAM", some "2021-01-01"], [some "Ca", some "5"]] "S" _ hmem
  exact ⟨hmem, by simpa using hc.1, hc.2.1, hc.2.2⟩

/-- C2. Cell coercion: a below-detection-limit cell such as `<5` or
`< 5.2` becomes 0, a blank cell becomes 0, unparseable text becomes 0, a
numeric cell `12.3` becomes 12.3; and no row is ever dropped because of a
value — the output length depends only on how many date labels parse. -/
theorem coercion_policy :
    coerceCell "<5" = 0 ∧ coerceCell "< 5.2" = 0 ∧ coerceCell (cellToString none) = 0 ∧
      coerceCell "abc" = 0 ∧ coerceCell "12.3" = 123 / 10 ∧
      ∀ (header : List Cell) (body : List (List Cell)) (site : String),
        (process_sheet (header :: body) site).length =
          (header.tail.countP (fun c => (parseDate (cellToString c)).isSome)) * body.length := by
  refine ⟨by decide, by decide, by decide, by decide, by decide, ?_⟩
  intro header body site
  rw [process_sheet, meltCols_length]

lemma ltMatchTail_length {cs rem : List Char} (h : ltMatchTail cs = some rem) :
    rem.length ≤ cs.length := by
  have hAle : (cs.dropWhile Char.isWhitespace).length ≤ cs.length :=
    (List.dropWhile_suffix Char.isWhitespace).length_le
  have hdrop : ((cs.dropWhile Char.isWhitespace).drop
      ((cs.dropWhile Char.isWhitespace).takeWhile Char.isDigit).length).length ≤
        (cs.dropWhile Char.isWhitespace).length := by
    rw [List.length_drop]
    omega
  simp only [ltMatchTail] at h
  split at h
  · exact absurd h (by simp)
  · split at h
    · simp only [Option.some.injEq] at h
      subst h
      simp
    · rename_i c r heq
      have hlen : (c :: r).length ≤ (cs.dropWhile Char.isWhitespace).length := heq ▸ hdrop
      have h1 : (r.dropWhile Char.isDigit).length ≤ r.length :=
        (List.dropWhile_suffix Char.isDigit).length_le
      simp only [List.length_cons] at hlen
      split at h <;> simp only [Option.some.injEq] at h <;> subst h
      · omega
      · simp only [List.length_cons]
        omega

lemma ltSubstGo_irrel : ∀ (f g : Nat) (cs : List Char), cs.length ≤ f → cs.length ≤ g →
    ltSubstGo f cs = ltSubstGo g cs := by
  intro f
  induction f with
  | zero =>
      intro g cs hf _
      have hnil : cs = [] := List.eq_nil_of_length_eq_zero (Nat.le_zero.mp hf)
      subst hnil
      cases g <;> rfl
  | succ f ih =>
      intro g cs hf hg
      cases cs with
      | nil => cases g <;> rfl
      | cons c rest =>
          cases g with
          | zero => simp at hg
          | succ g =>
              have hf2 : rest.length ≤ f := by simpa using hf
              have hg2 : rest.length ≤ g := by simpa using hg
              simp only [ltSubstGo]
              by_cases hc : c = '<'
              · rw [if_pos hc, if_pos hc]
                cases hm : ltMatchTail rest with
                | none =>
                    show c :: ltSubstGo f rest = c :: ltSubstGo g rest
                    rw [ih g rest hf2 hg2]
                | some rem =>
                    have hr := ltMatchTail_length hm
                    show '0' :: ltSubstGo f rem = '0' :: ltSubstGo g rem
                    rw [ih g rem (Nat.le_trans hr hf2) (Nat.le_trans hr hg2)]
              · rw [if_neg hc, if_neg hc, ih g rest hf2 hg2]

lemma ltSubst_cons_ne {c : Char} (rest : List Char) (hc : c ≠ '<') :
    ltSubst (c :: rest) = c :: ltSubst rest := by
  simp [ltSubst, List.length_cons, ltSubstGo, hc]

lemma ltSubst_cons_lt {rest rem : List Char} (h : ltMatchTail rest = some rem) :
    ltSubst ('<' :: rest) = '0' :: ltSubst rem := by
  have h1 : ltSubst ('<' :: rest) = '0' :: ltSubstGo rest.length rem := by
    simp [ltSubst, List.length_cons, ltSubstGo, h]
  rw [h1]
  exact congrArg ('0' :: ·)
    (ltSubstGo_irrel rest.length rem.length rem (ltMatchTail_length h) (le_refl _))

/-- C10. The below-detection-limit replacement is a substring substitution,
not a whole-cell match: in a cell `1<2` only the `<2` substring is replaced
by `0`, the resulting text `10` then parses to the value 10 (the row is
neither zeroed nor dropped); in general a `<digit` occurrence embedded in
longer text is replaced in place. -/
theorem lt_replace_substring :
    coerceCell "1<2" = 10 ∧ ltReplace "1<2" = "10" ∧
      ∀ (a b : List Char), (∀ c ∈ a, c ≠ '<') →
        (∀ c, b.head? = some c → c.isDigit = false ∧ c ≠ '.') →
        ltSubst (a ++ '<' :: '2' :: b) = a ++ '0' :: ltSubst b := by
  refine ⟨by decide, by decide, ?_⟩
  intro a b ha hb
  induction a with
  | nil =>
      have hmatch : ltMatchTail ('2' :: b) = some b := by
        cases b with
        | nil => rfl
        | cons c t =>
            have h1 : c.isDigit = false := (hb c rfl).1
            have h2 : c ≠ '.' := (hb c rfl).2
            have w2 : Char.isWhitespace '2' = false := by decide
            have d2 : Char.isDigit '2' = true := by decide
            simp [ltMatchTail, List.dropWhile_cons, List.takeWhile_cons, w2, d2, h1, h2]
      simpa using ltSubst_cons_lt hmatch
  | cons x a ih =>
      have hx : x ≠ '<' := ha x (List.mem_cons_self x a)
      rw [List.cons_append, ltSubst_cons_ne _ hx,
        ih (fun c hc => ha c (List.mem_cons_of_mem x hc)), List.cons_append]

/-- Witness for C10: the general substring property applied at the cell
text `1<2` split as `1` before the match and nothing after it. -/
theorem lt_replace_substring_witness :
    ltSubst (['1'] ++ '<' :: '2' :: []) = ['1'] ++ '0' :: ltSubst [] :=
  lt_replace_substring.2.2 ['1'] [] (by decide) (by simp)

/-- C9. In every pivot of this app the cell for a duplicated
`(key, parameter)` group is the arithmetic mean of the duplicate values
(the `pivot_table` default aggregation), both for the `(date, site)` keyed
pivots (scatter, pairplot) and the `(date, label, site)` keyed ratio pivot. -/
theorem pivot_cell_mean (rs : List Record) (d : Date) (l s p : String) (a b : ℚ) :
    (valuesAt rs d s p = [a, b] → cellDS rs d s p = some ((a + b) / 2)) ∧
      (valuesAt3 rs d l s p = [a, b] → cellDLS rs d l s p = some ((a + b) / 2)) := by
  constructor
  · intro h
    simp [cellDS, h]
  · intro h
    simp [cellDLS, h]

/-- Witness for C9: two duplicate readings 10 and 20 aggregate to their
mean 15 (not the first, last or sum). -/
theorem pivot_cell_mean_witness :
    cellDS [⟨"P", ⟨2021, 1, 1⟩, 10, "01-21", "A"⟩, ⟨"P", ⟨2021, 1, 1⟩, 20, "01-21", "A"⟩]
        ⟨2021, 1, 1⟩ "A" "P" = some ((10 + 20) / 2) ∧
      ((10 + 20 : ℚ) / 2 = 15) :=
  ⟨(pivot_cell_mean
      [⟨"P", ⟨2021, 1, 1⟩, 10, "01-21", "A"⟩, ⟨"P", ⟨2021, 1, 1⟩, 20, "01-21", "A"⟩]
      ⟨2021, 1, 1⟩ "01-21" "A" "P" 10 20).1 (by decide), by norm_num⟩

/-- C6. The candidate parameter list of the pairplot is sorted ascending,
has no duplicates, and contains exactly the parameters occurring in both
sheets (exact string equality). -/
theorem common_params_sorted_intersection (pair1 pair2 : List Record) :
    List.Sorted (· ≤ ·) (common_params pair1 pair2) ∧
      (common_params pair1 pair2).Nodup ∧
      ∀ p : String, p ∈ common_params pair1 pair2 ↔
        p ∈ pair1.map Record.parameter ∧ p ∈ pair2.map Record.parameter := by
  refine ⟨List.sorted_insertionSort _ _, ?_, ?_⟩
  · exact (List.perm_insertionSort _ _).nodup_iff.mpr (List.nodup_dedup _)
  · intro p
    simp [common_params, List.mem_insertionSort, List.mem_dedup, List.mem_filter]

lemma mem_filterParamsSites {all : List Record} {ps sites : List String} {r : Record} :
    r ∈ filterParamsSites all ps sites ↔ r ∈ all ∧ r.parameter ∈ ps ∧ r.site ∈ sites := by
  simp [filterParamsSites]

lemma mem_pivotCols {rs : List Record} {p : String} :
    p ∈ pivotCols rs ↔ ∃ r ∈ rs, r.parameter = p := by
  simp [pivotCols, List.mem_dedup]

lemma valuesAt_eq_nil_iff (rs : List Record) (d : Date) (s p : String) :
    valuesAt rs d s p = [] ↔
      ∀ r ∈ rs, ¬(r.sampling_date = d ∧ r.site = s ∧ r.parameter = p) := by
  simp [valuesAt, List.map_eq_nil_iff, List.filter_eq_nil_iff]

lemma cellDS_isSome_iff (rs : List Record) (d : Date) (s p : String) :
    (cellDS rs d s p).isSome = true ↔
      ∃ r ∈ rs, r.sampling_date = d ∧ r.site = s ∧ r.parameter = p := by
  have h1 : (cellDS rs d s p).isSome = true ↔ ¬(valuesAt rs d s p = []) := by
    unfold cellDS
    split <;> rename_i hE
    · simp [List.isEmpty_iff.mp hE]
    · rw [List.isEmpty_iff] at hE
      simp [hE]
  rw [h1, valuesAt_eq_nil_iff]
  push_neg
  simp

lemma mem_scatterPivotKeys {all : List Record} {px py : String} {sites : List String}
    {d : Date} {s : String} :
    (d, s) ∈ scatterPivotKeys all px py sites ↔
      (∃ r ∈ filterParamsSites all [px, py] sites, r.sampling_date = d ∧ r.site = s) ∧
        ∀ p ∈ pivotCols (filterParamsSites all [px, py] sites),
          (cellDS (filterParamsSites all [px, py] sites) d s p).isSome = true := by
  simp [scatterPivotKeys, List.mem_filter, List.mem_dedup, List.all_eq_true, Prod.ext_iff]

/-- Counterexample to C3 as stated: in this unified table, `P2` has a
reading only at site `B`; with selected sites `{A}` the filtered frame has
no `P2` column at all, `dropna` therefore removes nothing, and the pair
`(2021-01-01, A)` appears in the scatter output although only `P1` has a
reading there. -/
theorem scatter_keys_counterexample :
    ((Date.mk 2021 1 1, "A") ∈
        scatterPivotKeys
          [⟨"P1", ⟨2021, 1, 1⟩, 5, "01-21", "A"⟩, ⟨"P2", ⟨2021, 1, 1⟩, 7, "01-21", "B"⟩]
          "P1" "P2" ["A"]) ∧
      (List.all
          [⟨"P1", ⟨2021, 1, 1⟩, 5, "01-21", "A"⟩, ⟨"P2", ⟨2021, 1, 1⟩, 7, "01-21", "B"⟩]
          (fun r : Record =>
            !(decide (r.parameter = "P2" ∧ r.sampling_date = ⟨2021, 1, 1⟩ ∧ r.site = "A")))
        = true) := by
  decide

/-- C3 (amended). Provided each of the two selected parameters has at least
one reading at some selected site (so that both pivot columns exist), the
scatter output contains exactly the `(date, site)` pairs at a selected site
for which the unified table has a reading for both parameters. -/
theorem scatter_keys_amended (all : List Record) (px py : String) (sites : List String)
    (hx : ∃ r ∈ all, r.parameter = px ∧ r.site ∈ sites)
    (hy : ∃ r ∈ all, r.parameter = py ∧ r.site ∈ sites)
    (d : Date) (s : String) :
    (d, s) ∈ scatterPivotKeys all px py sites ↔
      s ∈ sites ∧
        (∃ r ∈ all, r.parameter = px ∧ r.sampling_date = d ∧ r.site = s) ∧
        (∃ r ∈ all, r.parameter = py ∧ r.sampling_date = d ∧ r.site = s) := by
  obtain ⟨rx, hrx, hrxp, hrxs⟩ := hx
  obtain ⟨ry, hry, hryp, hrys⟩ := hy
  have hrxf : rx ∈ filterParamsSites all [px, py] sites :=
    mem_filterParamsSites.mpr ⟨hrx, by simp [hrxp], hrxs⟩
  have hryf : ry ∈ filterParamsSites all [px, py] sites :=
    mem_filterParamsSites.mpr ⟨hry, by simp [hryp], hrys⟩
  rw [mem_scatterPivotKeys]
  constructor
  · rintro ⟨⟨r0, hr0f, hd0, hs0⟩, hall⟩
    obtain ⟨hr0, hr0p, hr0s⟩ := mem_filterParamsSites.mp hr0f
    have hs : s ∈ sites := hs0 ▸ hr0s
    refine ⟨hs, ?_, ?_⟩
    · have hpx : px ∈ pivotCols (filterParamsSites all [px, py] sites) :=
        mem_pivotCols.mpr ⟨rx, hrxf, hrxp⟩
      obtain ⟨r, hrf, hrd, hrs, hrp⟩ := (cellDS_isSome_iff _ d s px).mp (hall px hpx)
      obtain ⟨hra, _, _⟩ := mem_filterParamsSites.mp hrf
      exact ⟨r, hra, hrp, hrd, hrs⟩
    · have hpy : py ∈ pivotCols (filterParamsSites all [px, py] sites) :=
        mem_pivotCols.mpr ⟨ry, hryf, hryp⟩
      obtain ⟨r, hrf, hrd, hrs, hrp⟩ := (cellDS_isSome_iff _ d s py).mp (hall py hpy)
      obtain ⟨hra, _, _⟩ := mem_filterParamsSites.mp hrf
      exact ⟨r, hra, hrp, hrd, hrs⟩
  · rintro ⟨hs, ⟨r1, hr1, hp1, hd1, hs1⟩, ⟨r2, hr2, hp2, hd2, hs2⟩⟩
    have hr1f : r1 ∈ filterParamsSites all [px, py] sites :=
      mem_filterParamsSites.mpr ⟨hr1, by simp [hp1], hs1 ▸ hs⟩
    have hr2f : r2 ∈ filterParamsSites all [px, py] sites :=
      mem_filterParamsSites.mpr ⟨hr2, by simp [hp2], hs2 ▸ hs⟩
    refine ⟨⟨r1, hr1f, hd1, hs1⟩, ?_⟩
    intro p hp
    obtain ⟨r3, hr3f, hr3p⟩ := mem_pivotCols.mp hp
    obtain ⟨_, hr3mem, _⟩ := mem_filterParamsSites.mp hr3f
    have hpmem : p = px ∨ p = py := by
      rw [hr3p] at hr3mem
      simpa using hr3mem
    rw [cellDS_isSome_iff]
    rcases hpmem with hpp | hpp
    · exact ⟨r1, hr1f, hd1, hs1, hp1.trans hpp.symm⟩
    · exact ⟨r2, hr2f, hd2, hs2, hp2.trans hpp.symm⟩

/-- Witness for the amended C3 at a table where both parameters are read at
the selected site. -/
theorem scatter_keys_amended_witness :
    ((Date.mk 2021 1 1, "A") ∈
        scatterPivotKeys
          [⟨"P1", ⟨2021, 1, 1⟩, 5, "01-21", "A"⟩, ⟨"P2", ⟨2021, 1, 1⟩, 7, "01-21", "A"⟩]
          "P1" "P2" ["A"] ↔
      "A" ∈ ["A"] ∧
        (∃ r ∈ [⟨"P1", ⟨2021, 1, 1⟩, 5, "01-21", "A"⟩,
                (⟨"P2", ⟨2021, 1, 1⟩, 7, "01-21", "A"⟩ : Record)],
          r.parameter = "P1" ∧ r.sampling_date = ⟨2021, 1, 1⟩ ∧ r.site = "A") ∧
        (∃ r ∈ [⟨"P1", ⟨2021, 1, 1⟩, 5, "01-21", "A"⟩,
                (⟨"P2", ⟨2021, 1, 1⟩, 7, "01-21", "A"⟩ : Record)],
          r.parameter = "P2" ∧ r.sampling_date = ⟨2021, 1, 1⟩ ∧ r.site = "A")) :=
  scatter_keys_amended
    [⟨"P1", ⟨2021, 1, 1⟩, 5, "01-21", "A"⟩, ⟨"P2", ⟨2021, 1, 1⟩, 7, "01-21", "A"⟩]
    "P1" "P2" ["A"] (by decide) (by decide) ⟨2021, 1, 1⟩ "A"

lemma filterParamsSites_pair_comm (all : List Record) (p1 p2 : String)
    (sites : List String) :
    filterParamsSites all [p1, p2] sites = filterParamsSites all [p2, p1] sites := by
  unfold filterParamsSites
  apply List.filter_congr
  intro r _
  rw [decide_eq_decide]
  constructor <;> rintro ⟨hm, hsi⟩ <;>
    exact ⟨by simp only [List.mem_cons, List.mem_singleton] at hm ⊢; tauto, hsi⟩

lemma fdiv_fin_iff {a b q : ℚ} : fdiv a b = FpVal.fin q ↔ b ≠ 0 ∧ a / b = q := by
  unfold fdiv
  split <;> rename_i hb
  · constructor
    · intro h
      split at h
      · exact absurd h (by simp)
      · split at h <;> exact absurd h (by simp)
    · rintro ⟨hb2, _⟩
      exact absurd hb hb2
  · simp [hb]

lemma fdiv_zero_isArtifact (a : ℚ) : (fdiv a 0).isArtifact = true := by
  by_cases h0 : a = 0
  · simp [fdiv, h0, FpVal.isArtifact]
  · by_cases hpos : 0 < a <;> simp [fdiv, h0, hpos, FpVal.isArtifact]

/-- C4. On every surviving ratio pivot row, running the view with (P1, P2)
and then (P2, P1) yields exact reciprocals whenever neither division
produced an artifact; and a surviving row whose denominator cell is zero is
not filtered: its ratio is still emitted, as an artifact value. -/
theorem ratio_reciprocal (all : List Record) (p1 p2 : String) (sites : List String)
    (k : Date × String × String) :
    (∀ q12 q21 : ℚ,
        ratioAt all p1 p2 sites k = some (FpVal.fin q12) →
        ratioAt all p2 p1 sites k = some (FpVal.fin q21) →
        q12 = 1 / q21 ∧ q12 * q21 = 1) ∧
      (∀ a : ℚ,
        cellDLS (filterParamsSites all [p1, p2] sites) k.1 k.2.1 k.2.2 p1 = some a →
        cellDLS (filterParamsSites all [p1, p2] sites) k.1 k.2.1 k.2.2 p2 = some 0 →
        ratioAt all p1 p2 sites k = some (fdiv a 0) ∧ (fdiv a 0).isArtifact = true) := by
  constructor
  · intro q12 q21 h12 h21
    simp only [ratioAt] at h12 h21
    rw [filterParamsSites_pair_comm all p2 p1 sites] at h21
    cases hA : cellDLS (filterParamsSites all [p1, p2] sites) k.1 k.2.1 k.2.2 p1 with
    | none => rw [hA] at h12; simp at h12
    | some a =>
        cases hB : cellDLS (filterParamsSites all [p1, p2] sites) k.1 k.2.1 k.2.2 p2 with
        | none => rw [hA, hB] at h12; simp at h12
        | some b =>
            rw [hA, hB] at h12 h21
            simp only [Option.some.injEq] at h12 h21
            obtain ⟨hb, hq12⟩ := fdiv_fin_iff.mp h12
            obtain ⟨ha, hq21⟩ := fdiv_fin_iff.mp h21
            subst hq12
            subst hq21
            refine ⟨?_, ?_⟩
            · rw [one_div_div]
            · rw [div_mul_div_comm, mul_comm b a, div_self (mul_ne_zero ha hb)]
  · intro a hA hB
    refine ⟨?_, fdiv_zero_isArtifact a⟩
    simp only [ratioAt]
    rw [hA, hB]

/-- Witness for C4 at a table with X = 2 and Y = 4 at one key: the two
ratios are 1/2 and 2, exact reciprocals with product 1. -/
theorem ratio_reciprocal_witness :
    ratioAt [⟨"X", ⟨2021, 1, 1⟩, 2, "01-21", "A"⟩, ⟨"Y", ⟨2021, 1, 1⟩, 4, "01-21", "A"⟩]
        "X" "Y" ["A"] (⟨2021, 1, 1⟩, "01-21", "A") = some (FpVal.fin (1 / 2)) ∧
      ((1 : ℚ) / 2 = 1 / 2 ∧ (1 : ℚ) / 2 * 2 = 1) :=
  ⟨by decide,
    (ratio_reciprocal
        [⟨"X", ⟨2021, 1, 1⟩, 2, "01-21", "A"⟩, ⟨"Y", ⟨2021, 1, 1⟩, 4, "01-21", "A"⟩]
        "X" "Y" ["A"] (⟨2021, 1, 1⟩, "01-21", "A")).1 (1 / 2) 2 (by decide) (by decide)⟩

/-- C5 is a code bug: with two selected sheets and zero selected
parameters, the pairplot section does not produce the documented
empty-selection signal — the render line runs outside the selection guard
and Python raises `NameError` on the unbound `pivot_pair`, i.e. a crash. -/
theorem pairplot_empty_selection_crash (processed : List (String × List Record))
    (s1 s2 : String) :
    pairplot_section processed [s1, s2] [] =
      Except.error "NameError: name pivot_pair is not defined" := rfl

/-- C7. Only the first four sheets of a workbook contribute to the unified
table; the table is the order-preserving concatenation of the per-sheet
normaliser outputs; a CSV upload is processed as one implied sheet. -/
theorem aggregate_first_four (wb extra : List (String × RawSheet)) (df : RawSheet)
    (h : 4 ≤ wb.length) :
    all_data_workbook (wb ++ extra) = all_data_workbook wb ∧
      (∀ r : Record, r ∈ all_data_workbook wb ↔
        ∃ nd ∈ wb.take 4, r ∈ process_sheet nd.2 nd.1) ∧
      all_data_csv df = process_sheet df "Sheet1" := by
  refine ⟨?_, ?_, ?_⟩
  · unfold all_data_workbook
    rw [List.take_append_of_le_length h]
  · intro r
    simp only [all_data_workbook, List.mem_flatten, ← List.map_take, List.mem_map,
      Prod.exists]
    constructor
    · rintro ⟨l, ⟨a, b, hab, rfl⟩, hr⟩
      exact ⟨a, b, hab, hr⟩
    · rintro ⟨a, b, hab, hr⟩
      exact ⟨process_sheet b a, ⟨a, b, hab, rfl⟩, hr⟩
  · simp [all_data_csv]

/-- Witness for C7: a fifth sheet does not change the unified table. -/
theorem aggregate_first_four_witness :
    all_data_workbook
        ([("S1", []), ("S2", []), ("S3", []), ("S4", [])] ++ [("S5", [[some "x"]])]) =
      all_data_workbook [("S1", []), ("S2", []), ("S3", []), ("S4", [])] :=
  (aggregate_first_four [("S1", []), ("S2", []), ("S3", []), ("S4", [])]
    [("S5", [[some "x"]])] [] (by decide)).1

/-- Counterexample to C8 as stated: with a single selected ratio parameter
the ratio section renders nothing and also shows no message at all — the
source has no message branch there, so no explanatory message appears. -/
theorem ratio_underselection_silent :
    ratio_section [] ["OnlyOne"] [] = (false, [], []) := rfl

/-- C8 (amended). Under-selection is never fatal and the affected view is
not rendered, but only the pairplot's sheet check shows an explanatory
message; the ratio view skips silently with no message. -/
theorem underselection_behavior (all : List Record) (params sites : List String)
    (processed : List (String × List Record)) (sp sel : List String)
    (h1 : params.length ≠ 2) (h2 : sp.length ≠ 2) :
    ratio_section all params sites = (false, [], []) ∧
      pairplot_section processed sp sel =
        Except.ok (false, ["Please select at least one parameter for the pairplot."], []) := by
  constructor
  · rw [ratio_section, if_neg h1]
  · match sp, h2 with
    | [], _ => rfl
    | [a], _ => rfl
    | [a, b], h2 => exact absurd rfl h2
    | a :: b :: c :: t, _ => rfl

/-- Witness for the amended C8 at concrete under-selections. -/
theorem underselection_behavior_witness :
    ratio_section [] ["P"] [] = (false, [], []) ∧
      pairplot_section [] ([] : List String) [] =
        Except.ok (false, ["Please select at least one parameter for the pairplot."], []) :=
  underselection_behavior [] ["P"] [] [] [] [] (by decide) (by decide)

end DataVis
